import Mathlib

/-!
# Verification of `nistats/regression.py`

Shallow embedding of the regression estimators in `src/nistats/regression.py`:
`OLSModel`, `ARModel`, `RegressionResults`, `SimpleRegressionResults`.

Modelling conventions:
* numpy floats are modelled by `ℚ`;
* an `n × m` numpy array is `Mat n m := Fin n → Fin m → ℚ` (rows = observations,
  columns = regressors or response columns);
* external numerics primitives that the module imports from the numerics
  library (`scipy.linalg.pinv`, `numpy.linalg.matrix_rank`, `np.log`, `np.pi`,
  `np.sqrt`, machine epsilon) are abstract parameters of the definitions;
* fallible Python code (exceptions) returns `Except String _`;
* a Python attribute that a constructor may leave unassigned is an `Option`
  field, `none` meaning the attribute does not exist on the instance, so that
  reading it is an `AttributeError`.
-/

open Finset

/-- An `n × m` array of rationals, rows first (numpy 2-D array). -/
abbrev Mat (n m : ℕ) := Fin n → Fin m → ℚ

/-- Matrix product `np.dot`. -/
def mmul {n p m : ℕ} (A : Mat n p) (B : Mat p m) : Mat n m :=
  fun i j => ∑ t, A i t * B t j

/-- Elementwise difference of arrays of the same shape. -/
def msub {n m : ℕ} (A B : Mat n m) : Mat n m :=
  fun i j => A i j - B i j

/-- `np.transpose`. -/
def mtrans {n m : ℕ} (A : Mat n m) : Mat m n :=
  fun i j => A j i

/-- `np.abs(A).sum()`: the sum of absolute values of all entries. -/
def absSum {n m : ℕ} (A : Mat n m) : ℚ :=
  ∑ i, ∑ j, |A i j|

/-- The row index `t - (i+1)` of the unfiltered input that lag `i` (0-based)
subtracts from row `t` in `ARModel.whiten`; clipped subtraction keeps it in
range (it is only read when `i + 1 ≤ t`). -/
def prevRow {n : ℕ} (t : Fin n) (i : ℕ) : Fin n :=
  ⟨t.val - (i + 1), Nat.lt_of_le_of_lt (Nat.sub_le _ _) t.isLt⟩

/-- One iteration of the loop in `ARModel.whiten`:
`_X[(i + 1):] = _X[(i + 1):] - rho[i] * X[0: - (i + 1)]`.
`X` is the unfiltered input, `acc` the progressively filtered copy. -/
def arStep {n q : ℕ} (X : Mat n q) (i : ℕ) (r : ℚ) (acc : Mat n q) : Mat n q :=
  fun t c => if i + 1 ≤ t.val then acc t c - r * X (prevRow t i) c else acc t c

/-- `ARModel.whiten`: starting from a copy of `X`, apply `arStep` for each lag
`i` in `range(order)` in increasing order, where `order = rho.length` (the
constructor always makes `self.rho` have exactly `self.order` entries). -/
def ARModel.whiten {n q : ℕ} (rho : List ℚ) (X : Mat n q) : Mat n q :=
  (List.range rho.length).foldl (fun acc i => arStep X i (rho.getD i 0) acc) X

/-- The runtime value passed as the `rho` argument of `ARModel.__init__`,
tagged by its Python runtime type: a plain `int`, a `bool`, a scalar float,
a 1-D array-like, or a 2-D (rectangular, nested-list) array-like.
`type(rho) is type(1)` in the source is an exact runtime-type test, so `bool`
(a distinct runtime type in Python) is a separate constructor. -/
inductive PyRho where
  | int (k : ℕ)
  | bool (b : Bool)
  | float (c : ℚ)
  | vector (v : List ℚ)
  | matrix (rows : List (List ℚ))

/-- The `rho` dispatch of `ARModel.__init__`, returning `(order, rho)` or the
`ValueError`.  The non-`int` branch is `np.squeeze(np.asarray(rho))` followed
by the shape test: `np.squeeze` drops every axis of length 1, a squeezed 0-D
scalar is reshaped to `(1,)`, and a shape that is still 2-D raises
`ValueError("AR parameters must be a scalar or a vector")`. -/
def parseRho : PyRho → Except String (ℕ × List ℚ)
  | .int k => .ok (k, List.replicate k 0)
  | .bool b => .ok (1, [if b then 1 else 0])
  | .float c => .ok (1, [c])
  | .vector v => .ok (v.length, v)
  | .matrix rows =>
      let r := rows.length
      let c := (rows.headD []).length
      if r = 1 then .ok (c, rows.headD [])
      else if c = 1 then .ok (r, rows.map (fun row => row.headD 0))
      else .error "AR parameters must be a scalar or a vector"

/-- A rectangular nested list (a well-formed 2-D numpy array). -/
def rectRows (rows : List (List ℚ)) : Prop :=
  ∀ row ∈ rows, row.length = (rows.headD []).length

instance (rows : List (List ℚ)) : Decidable (rectRows rows) := by
  unfold rectRows; infer_instance

/-- The state built by `OLSModel.initialize` (shared by `OLSModel` and
`ARModel`): the design, the whitened design, its pseudoinverse `calc_beta`,
the normalized covariance, the degrees of freedom, and the `whiten` method of
the instance (the overridable hook). -/
structure OLSModel (n k : ℕ) where
  design : Mat n k
  wdesign : Mat n k
  calc_beta : Mat k n
  normalized_cov_beta : Mat k k
  df_total : ℕ
  df_model : ℕ
  df_resid : ℤ
  whitenResp : (q : ℕ) → Mat n q → Mat n q

/-- `OLSModel.initialize`, parameterized by the instance's `whiten` method
`wfn`, the external pseudoinverse `pinv` (`scipy.linalg.pinv`), the external
tolerance-based rank `rank` (`numpy.linalg.matrix_rank`), and the machine
epsilon `epsM` (`np.finfo(np.float).eps`):
`wdesign = whiten(design)`, `calc_beta = pinv(wdesign)`,
`normalized_cov_beta = calc_beta · calc_betaᵀ`, `df_total = n`,
`df_model = matrix_rank(design, abs(design).sum() * eps)` on the unwhitened
design, `df_resid = df_total - df_model`. -/
def OLSModel.init {n k : ℕ} (wfn : (q : ℕ) → Mat n q → Mat n q)
    (pinv : Mat n k → Mat k n) (rank : Mat n k → ℚ → ℕ) (epsM : ℚ)
    (design : Mat n k) : OLSModel n k :=
  let wdesign := wfn k design
  let cb := pinv wdesign
  { design := design
    wdesign := wdesign
    calc_beta := cb
    normalized_cov_beta := mmul cb (mtrans cb)
    df_total := n
    df_model := rank design (absSum design * epsM)
    df_resid := (n : ℤ) - rank design (absSum design * epsM)
    whitenResp := wfn }

/-- `OLSModel.__init__`: the base estimator, whose `whiten` is the identity. -/
def OLSModel.mk' {n k : ℕ} (pinv : Mat n k → Mat k n) (rank : Mat n k → ℚ → ℕ)
    (epsM : ℚ) (design : Mat n k) : OLSModel n k :=
  OLSModel.init (fun _ X => X) pinv rank epsM design

/-- `ARModel`: the AR(p) estimator; inherits the `OLSModel` state and
additionally owns `order` and `rho`. -/
structure ARModel (n k : ℕ) extends OLSModel n k where
  order : ℕ
  rho : List ℚ

/-- `ARModel.__init__`: dispatch on `rho`, then defer to the base constructor,
which calls the overridden `whiten` on the design. -/
def ARModel.mk' {n k : ℕ} (pinv : Mat n k → Mat k n) (rank : Mat n k → ℚ → ℕ)
    (epsM : ℚ) (design : Mat n k) (arg : PyRho) : Except String (ARModel n k) :=
  match parseRho arg with
  | .error e => .error e
  | .ok (o, rv) =>
      .ok { toOLSModel :=
              OLSModel.init (fun _ X => ARModel.whiten rv X) pinv rank epsM design
            order := o
            rho := rv }

/-- `RegressionResults` (the full results).  Its base-class part
(`LikelihoodModelResults.__init__`, not under `src/`) stores `theta`, `Y`,
`model`, `cov`, `dispersion`, `nuisance`, as the spec's data model describes;
the subclass then stores `wY`, `wresid` and `wdesign = model.wdesign`.
A nuisance dict with an optional `sigma` entry is `Option (Fin q → ℚ)`. -/
structure RegressionResults (n k q : ℕ) where
  theta : Mat k q
  Y : Mat n q
  model : OLSModel n k
  cov : Mat k k
  dispersion : Fin q → ℚ
  nuisance : Option (Option (Fin q → ℚ))
  wY : Mat n q
  wresid : Mat n q
  wdesign : Mat n k

/-- `OLSModel.fit`: `wY = whiten(Y)`, `beta = calc_beta · wY` (the pseudoinverse
precomputed at construction), `wresid = wY - wdesign · beta`,
`dispersion = sum(wresid ** 2, 0) / (wdesign.shape[0] - wdesign.shape[1])`
per column; wraps everything in a full results object with
`cov = normalized_cov_beta` and no nuisance. -/
def OLSModel.fit {n k q : ℕ} (m : OLSModel n k) (Y : Mat n q) :
    RegressionResults n k q :=
  let wY := m.whitenResp q Y
  let beta := mmul m.calc_beta wY
  let wresid := msub wY (mmul m.wdesign beta)
  { theta := beta
    Y := Y
    model := m
    cov := m.normalized_cov_beta
    dispersion := fun c => (∑ t, wresid t c ^ 2) / ((n : ℚ) - (k : ℚ))
    nuisance := none
    wY := wY
    wresid := wresid
    wdesign := m.wdesign }

/-- `OLSModel.logL`, parameterized by the external `np.log` and `np.pi`:
`r = whiten(Y) - wdesign · beta`, `n = df_total`, `SSE = (r ** 2).sum(0)`;
if `nuisance is None` then `sigmasq = SSE / n`, otherwise `nuisance['sigma']`
is read — a dict without the key raises `KeyError`; returns
`- n / 2 * log(2 * pi * sigmasq) - SSE / (2 * sigmasq)` per column. -/
def OLSModel.logL {n k q : ℕ} (log : ℚ → ℚ) (pi : ℚ) (m : OLSModel n k)
    (beta : Mat k q) (Y : Mat n q) (nuisance : Option (Option (Fin q → ℚ))) :
    Except String (Fin q → ℚ) :=
  let X := m.wdesign
  let wY := m.whitenResp q Y
  let r := msub wY (mmul X beta)
  let nn := m.df_total
  let SSE := fun c => ∑ t, r t c ^ 2
  match nuisance with
  | none =>
      .ok (fun c =>
        let sigmasq := SSE c / (nn : ℚ);
        -(nn : ℚ) / 2 * log (2 * pi * sigmasq) - SSE c / (2 * sigmasq))
  | some dict =>
      match dict with
      | none => .error "KeyError: sigma"
      | some sigmasq =>
          .ok (fun c =>
            -(nn : ℚ) / 2 * log (2 * pi * sigmasq c) - SSE c / (2 * sigmasq c))

/-- Modelled from the spec: `positive_reciprocal` lives in `nistats/utils.py`,
which is not under `src/`; the spec defines it as returning `1/x` where
`x > 0` and `0` elsewhere. -/
def positive_reciprocal (x : ℚ) : ℚ :=
  if 0 < x then 1 / x else 0

/-- `RegressionResults.predicted = wdesign · theta`. -/
def RegressionResults.predicted {n k q : ℕ} (r : RegressionResults n k q) :
    Mat n q :=
  mmul r.wdesign r.theta

/-- `RegressionResults.resid = Y - predicted`. -/
def RegressionResults.resid {n k q : ℕ} (r : RegressionResults n k q) :
    Mat n q :=
  msub r.Y r.predicted

/-- `RegressionResults.norm_resid = resid * positive_reciprocal(sqrt(dispersion))`,
parameterized by the external `np.sqrt`; the per-column dispersion broadcasts
across rows. -/
def RegressionResults.norm_resid {n k q : ℕ} (sqrt : ℚ → ℚ)
    (r : RegressionResults n k q) : Mat n q :=
  fun t c => r.resid t c * positive_reciprocal (sqrt (r.dispersion c))

/-- `SimpleRegressionResults` (the compact results).  Its `__init__` assigns
exactly `theta`, `cov`, `dispersion`, `nuisance`, `df_total`, `df_model`,
`df_resid` and never calls the base-class constructor, so the instance has no
`model` attribute: the `model` field is an `Option` that the constructor
leaves `none`. -/
structure SimpleRegressionResults (n k q : ℕ) where
  theta : Mat k q
  cov : Mat k k
  dispersion : Fin q → ℚ
  nuisance : Option (Option (Fin q → ℚ))
  df_total : ℕ
  df_model : ℕ
  df_resid : ℤ
  model : Option (OLSModel n k)

/-- `SimpleRegressionResults.__init__(results)`: copies `theta`, `cov`,
`dispersion`, `nuisance` from the full results, sets
`df_total = results.Y.shape[0]`, `df_model = results.model.df_model`,
`df_resid = df_total - df_model`; assigns nothing else. -/
def SimpleRegressionResults.ofResults {n k q : ℕ}
    (results : RegressionResults n k q) : SimpleRegressionResults n k q :=
  { theta := results.theta
    cov := results.cov
    dispersion := results.dispersion
    nuisance := results.nuisance
    df_total := n
    df_model := results.model.df_model
    df_resid := (n : ℤ) - results.model.df_model
    model := none }

/-- `SimpleRegressionResults.predicted`: reads `self.model.design`; on an
instance with no `model` attribute this is an `AttributeError`. -/
def SimpleRegressionResults.predicted {n k q : ℕ}
    (r : SimpleRegressionResults n k q) : Except String (Mat n q) :=
  match r.model with
  | none => .error "AttributeError: SimpleRegressionResults object has no attribute model"
  | some m => .ok (mmul m.design r.theta)

/-- `SimpleRegressionResults.logL`: unconditionally
`raise ValueError("can not use this method for simple results")`. -/
def SimpleRegressionResults.logL {n k q : ℕ}
    (_r : SimpleRegressionResults n k q) (_Y : Mat n q) :
    Except String (Fin q → ℚ) :=
  .error "can not use this method for simple results"

/-- `true` iff the Python call returned normally (did not raise). -/
def exceptOk {α : Type _} : Except String α → Bool
  | .ok _ => true
  | .error _ => false

/-! ## Closed form of the AR whitening fold -/

/-- Each pass of the loop in `ARModel.whiten` subtracts lagged rows of the
unfiltered input `X`, so the fold over `range L` has a closed form: row `t`
is `X t` minus the sum of `f i * X (t - (i+1))` over the lags `i` with
`i + 1 ≤ t`, i.e. over `i < min L t`. -/
lemma arFold_apply {n q : ℕ} (X : Mat n q) (f : ℕ → ℚ) (L : ℕ)
    (t : Fin n) (c : Fin q) :
    ((List.range L).foldl (fun acc i => arStep X i (f i) acc) X) t c =
      X t c - ∑ i ∈ Finset.range (min L t.val), f i * X (prevRow t i) c := by
  induction L with
  | zero => simp
  | succ L ih =>
    rw [List.range_succ, List.foldl_append, List.foldl_cons, List.foldl_nil]
    by_cases h : L + 1 ≤ t.val
    · have hmin1 : min (L + 1) t.val = L + 1 := by omega
      have hmin0 : min L t.val = L := by omega
      rw [arStep, if_pos h, ih, hmin0, hmin1, Finset.sum_range_succ]
      ring
    · have hmin1 : min (L + 1) t.val = min L t.val := by omega
      rw [arStep, if_neg h, ih, hmin1]

/-! ## Claim theorems -/

/-- C2: for an AR model with coefficients `rho` (order = `rho.length`),
`whiten X` is the cumulative recurrence that, for each lag `i+1` taken in
increasing order, subtracts `rho[i]` times the rows of the original unfiltered
input shifted forward by `i+1` from rows `i+1` onward of the progressively
filtered copy; its closed form at row `t` subtracts
`∑ rho[i] * X[t-(i+1)]` over the applicable lags.  In particular whitening with
an empty `rho` (order 0) is the identity, and for `rho = [r]` row 0 is
unchanged while row `t > 0` becomes `X[t] - r * X[t-1]`. -/
theorem ar_whiten_recurrence {n q : ℕ} (rho : List ℚ) (X : Mat n q) :
    (∀ t c, ARModel.whiten rho X t c =
        X t c - ∑ i ∈ Finset.range (min rho.length t.val),
          rho.getD i 0 * X (prevRow t i) c)
    ∧ ARModel.whiten ([] : List ℚ) X = X
    ∧ (∀ r : ℚ, ∀ t c, ARModel.whiten [r] X t c =
        if t.val = 0 then X t c else X t c - r * X (prevRow t 0) c) := by
  refine ⟨fun t c => arFold_apply X (fun i => rho.getD i 0) rho.length t c,
    ?_, fun r t c => ?_⟩
  · funext t c
    simp [ARModel.whiten]
  · rw [show ARModel.whiten [r] X t c =
        X t c - ∑ i ∈ Finset.range (min 1 t.val),
          ([r].getD i 0) * X (prevRow t i) c from
      arFold_apply X (fun i => [r].getD i 0) 1 t c]
    by_cases h : t.val = 0
    · simp [h]
    · have hmin : min 1 t.val = 1 := by omega
      rw [if_neg h, hmin, Finset.sum_range_one]
      simp

/-- C1: on an estimator built by the shared constructor (OLS: identity
whitening; AR: the AR filter), `fit Y` returns results whose coefficients are
`pinv(whiten(design)) · whiten(Y)` computed through the `calc_beta`
pseudoinverse precomputed at construction, whose whitened residuals are
`whiten(Y) - whiten(design) · beta`, and whose dispersion is the per-column
sum of squared whitened residuals divided by `n - k`. -/
theorem fit_via_precomputed_pinv {n k q : ℕ}
    (wfn : (q : ℕ) → Mat n q → Mat n q) (pinv : Mat n k → Mat k n)
    (rank : Mat n k → ℚ → ℕ) (epsM : ℚ) (design : Mat n k) (Y : Mat n q) :
    ((OLSModel.init wfn pinv rank epsM design).fit Y).theta =
        mmul (pinv (wfn k design)) (wfn q Y)
    ∧ ((OLSModel.init wfn pinv rank epsM design).fit Y).wresid =
        msub (wfn q Y)
          (mmul (wfn k design) ((OLSModel.init wfn pinv rank epsM design).fit Y).theta)
    ∧ ((OLSModel.init wfn pinv rank epsM design).fit Y).dispersion =
        (fun c => (∑ t, ((OLSModel.init wfn pinv rank epsM design).fit Y).wresid t c ^ 2)
          / ((n : ℚ) - (k : ℚ)))
    ∧ (OLSModel.init wfn pinv rank epsM design).calc_beta =
        pinv (OLSModel.init wfn pinv rank epsM design).wdesign
    ∧ ((OLSModel.init wfn pinv rank epsM design).fit Y).theta =
        mmul (OLSModel.init wfn pinv rank epsM design).calc_beta
          ((OLSModel.init wfn pinv rank epsM design).whitenResp q Y) :=
  ⟨rfl, rfl, rfl, rfl, rfl⟩

/-- C5: for every estimator built by the shared constructor (hence for OLS and
AR alike), `df_resid = df_total - df_model`, `df_total` is the observation
count, and `df_model` is the external numeric rank of the unwhitened design at
tolerance `abs(design).sum() * eps`; and for every compact results object the
same subtraction invariant holds with `df_model` copied from the estimator. -/
theorem df_resid_invariant {n k q : ℕ}
    (wfn : (q : ℕ) → Mat n q → Mat n q) (pinv : Mat n k → Mat k n)
    (rank : Mat n k → ℚ → ℕ) (epsM : ℚ) (design : Mat n k) :
    ((OLSModel.init wfn pinv rank epsM design).df_resid =
        ((OLSModel.init wfn pinv rank epsM design).df_total : ℤ) -
          ((OLSModel.init wfn pinv rank epsM design).df_model : ℤ)
      ∧ (OLSModel.init wfn pinv rank epsM design).df_total = n
      ∧ (OLSModel.init wfn pinv rank epsM design).df_model =
          rank design (absSum design * epsM))
    ∧ ∀ results : RegressionResults n k q,
        (SimpleRegressionResults.ofResults results).df_resid =
            ((SimpleRegressionResults.ofResults results).df_total : ℤ) -
              ((SimpleRegressionResults.ofResults results).df_model : ℤ)
        ∧ (SimpleRegressionResults.ofResults results).df_total = n
        ∧ (SimpleRegressionResults.ofResults results).df_model =
            results.model.df_model :=
  ⟨⟨rfl, rfl, rfl⟩, fun _ => ⟨rfl, rfl, rfl⟩⟩

/-- C4 (amended): `logL` whitens `Y`, forms `r = whiten(Y) - wdesign·beta` and
per-column `SSE = sum(r²)`, and returns `-n/2·log(2π·σ²) - SSE/(2σ²)` with
`n = df_total`, where `σ² = SSE/n` when `nuisance` is `None`; when a nuisance
dict is supplied its `sigma` entry is used, and a dict without a sigma entry
raises a `KeyError` instead of falling back to `SSE/n`. -/
theorem logL_sigma_dispatch {n k q : ℕ} (log : ℚ → ℚ) (pi : ℚ)
    (m : OLSModel n k) (beta : Mat k q) (Y : Mat n q) :
    (OLSModel.logL log pi m beta Y none =
        .ok (fun c =>
          -(m.df_total : ℚ) / 2 *
              log (2 * pi *
                ((∑ t, msub (m.whitenResp q Y) (mmul m.wdesign beta) t c ^ 2)
                  / (m.df_total : ℚ)))
            - (∑ t, msub (m.whitenResp q Y) (mmul m.wdesign beta) t c ^ 2)
              / (2 * ((∑ t, msub (m.whitenResp q Y) (mmul m.wdesign beta) t c ^ 2)
                  / (m.df_total : ℚ)))))
    ∧ (∀ s : Fin q → ℚ, OLSModel.logL log pi m beta Y (some (some s)) =
        .ok (fun c =>
          -(m.df_total : ℚ) / 2 * log (2 * pi * s c)
            - (∑ t, msub (m.whitenResp q Y) (mmul m.wdesign beta) t c ^ 2)
              / (2 * s c)))
    ∧ OLSModel.logL log pi m beta Y (some none) = .error "KeyError: sigma" :=
  ⟨rfl, fun _ => rfl, rfl⟩

/-! ## Concrete instances used by counterexamples and witnesses -/

/-- The design `[[1], [1]]` (two observations, one regressor). -/
def design2 : Mat 2 1 := fun _ _ => 1

/-- The actual Moore-Penrose pseudoinverse of `[[1], [1]]`, namely
`[[1/2, 1/2]]`, supplied as the external `pinv`. -/
def pinvHalf : Mat 2 1 → Mat 1 2 := fun _ _ _ => 1 / 2

/-- The actual numeric rank of `[[1], [1]]`, supplied as the external rank. -/
def rankConst2 : Mat 2 1 → ℚ → ℕ := fun _ _ => 1

/-- `OLSModel([[1], [1]])`. -/
def mOLS2 : OLSModel 2 1 := OLSModel.mk' pinvHalf rankConst2 0 design2

/-- The response `[1, 3]`. -/
def Y2 : Mat 2 1 := fun t _ => if t.val = 0 then 1 else 3

/-- The coefficient vector `[2]`. -/
def beta2 : Mat 1 1 := fun _ _ => 2

/-- C4 counterexample: on `OLSModel([[1], [1]])` with `beta = [2]`,
`Y = [1, 3]`, `log = id`, `pi = 1`, a nuisance dict without a sigma entry
makes `logL` raise `KeyError`; the claim instead predicts the value obtained
from the plug-in `σ² = SSE/n = 1`, which here is `ok (fun _ => -3)`. -/
theorem logL_missing_sigma_keyerror :
    OLSModel.logL (fun x => x) 1 mOLS2 beta2 Y2 (some none) =
        .error "KeyError: sigma"
    ∧ OLSModel.logL (fun x => x) 1 mOLS2 beta2 Y2 (some none) ≠
        .ok (fun _ => (-3 : ℚ)) :=
  ⟨rfl, fun h => Except.noConfusion h⟩

/-- C6: a plain integer `rho = p` sets `order = p` with zero-initialized
coefficients, while a scalar float `rho = c` is promoted to the length-1
coefficient sequence `[c]` with order 1; hence `ARModel(X, 1)` and
`ARModel(X, 1.0)` are different estimators (`rho = [0]` versus `rho = [1]`). -/
theorem ar_int_vs_float_rho {n k : ℕ} (pinv : Mat n k → Mat k n)
    (rank : Mat n k → ℚ → ℕ) (epsM : ℚ) (design : Mat n k) :
    (∀ p : ℕ, parseRho (.int p) = .ok (p, List.replicate p 0))
    ∧ (∀ c : ℚ, parseRho (.float c) = .ok (1, [c]))
    ∧ (ARModel.mk' pinv rank epsM design (.int 1)).map ARModel.rho = .ok [0]
    ∧ (ARModel.mk' pinv rank epsM design (.float 1)).map ARModel.rho = .ok [1]
    ∧ ARModel.mk' pinv rank epsM design (.int 1) ≠
        ARModel.mk' pinv rank epsM design (.float 1) := by
  refine ⟨fun _ => rfl, fun _ => rfl, rfl, rfl, fun h => ?_⟩
  have h2 := congrArg (Except.map ARModel.rho) h
  have h3 : ([0] : List ℚ) = [1] := by
    injection h2
  exact absurd h3 (by decide)

/-- C10: a boolean `rho` such as `True` does not take the integer-order path
(`type(True) is type(1)` is false in Python); it is squeezed to a scalar and
promoted to the coefficient sequence `[1]` with order 1, so
`ARModel(X, True)` differs from the zero-initialized `ARModel(X, 1)`. -/
theorem ar_bool_rho_literal {n k : ℕ} (pinv : Mat n k → Mat k n)
    (rank : Mat n k → ℚ → ℕ) (epsM : ℚ) (design : Mat n k) :
    parseRho (.bool true) = .ok (1, [1])
    ∧ parseRho (.bool true) ≠ parseRho (.int 1)
    ∧ (ARModel.mk' pinv rank epsM design (.bool true)).map ARModel.rho = .ok [1]
    ∧ ARModel.mk' pinv rank epsM design (.bool true) ≠
        ARModel.mk' pinv rank epsM design (.int 1) := by
  refine ⟨rfl, fun h => ?_, rfl, fun h => ?_⟩
  · have h2 : ((1 : ℕ), ([1] : List ℚ)) = (1, [0]) := by
      injection h
    have h3 := congrArg Prod.snd h2
    exact absurd h3 (by decide)
  · have h2 := congrArg (Except.map ARModel.rho) h
    have h3 : ([1] : List ℚ) = [0] := by
      injection h2
    exact absurd h3 (by decide)

/-- C7 (amended): a 2-D `rho` raises the configuration error exactly when the
shape that remains after `np.squeeze` (which drops length-1 axes) is still
2-D; for a rectangular 2-D array both dimensions being at least 2 forces the
`ValueError`, and no estimator is produced. -/
theorem ar_matrix_rho_config_error {n k : ℕ} (pinv : Mat n k → Mat k n)
    (rank : Mat n k → ℚ → ℕ) (epsM : ℚ) (design : Mat n k)
    (rows : List (List ℚ)) (hrect : rectRows rows)
    (hr : 2 ≤ rows.length) (hc : 2 ≤ (rows.headD []).length) :
    parseRho (.matrix rows) = .error "AR parameters must be a scalar or a vector"
    ∧ ARModel.mk' pinv rank epsM design (.matrix rows) =
        .error "AR parameters must be a scalar or a vector" := by
  have hr1 : rows.length ≠ 1 := by omega
  have hc1 : (rows.headD []).length ≠ 1 := by omega
  have hc2 : ¬(rows.head?.getD []).length = 1 := by
    cases rows with
    | nil => simp at hr
    | cons a l => simpa using hc1
  have hp : parseRho (.matrix rows) =
      .error "AR parameters must be a scalar or a vector" := by
    simp [parseRho, hr1, hc2]
  exact ⟨hp, by rw [ARModel.mk', hp]⟩

/-- Witness for C7's amended theorem: the rectangular shape-(2,2) array
`[[1, 2], [3, 4]]` raises the configuration error on `OLSModel([[1], [1]])`'s
design. -/
theorem ar_matrix_rho_config_error_witness :
    rectRows [[(1 : ℚ), 2], [3, 4]]
    ∧ 2 ≤ ([[(1 : ℚ), 2], [3, 4]] : List (List ℚ)).length
    ∧ 2 ≤ (([[(1 : ℚ), 2], [3, 4]] : List (List ℚ)).headD []).length
    ∧ ARModel.mk' pinvHalf rankConst2 0 design2 (.matrix [[1, 2], [3, 4]]) =
        .error "AR parameters must be a scalar or a vector" :=
  ⟨by decide, by decide, by decide,
    (ar_matrix_rho_config_error pinvHalf rankConst2 0 design2 [[1, 2], [3, 4]]
      (by decide) (by decide) (by decide)).2⟩

/-- C7 counterexample: the 2-D array `[[1, 2]]` of shape `(1, 2)` — neither
scalar nor 1-D — does not raise: `np.squeeze` reduces it to the 1-D `[1, 2]`,
and construction succeeds with `order = 2`, `rho = [1, 2]`. -/
theorem ar_matrix_rho_1x2_succeeds :
    exceptOk (ARModel.mk' pinvHalf rankConst2 0 design2 (.matrix [[1, 2]])) = true
    ∧ (ARModel.mk' pinvHalf rankConst2 0 design2 (.matrix [[1, 2]])).map
        ARModel.rho = .ok [1, 2]
    ∧ (ARModel.mk' pinvHalf rankConst2 0 design2 (.matrix [[1, 2]])).map
        ARModel.order = .ok 2 :=
  ⟨rfl, rfl, rfl⟩

/-- C8: `norm_resid` is `resid` times `positive_reciprocal(sqrt(dispersion))`
(the per-column factor broadcast across rows), and whenever the external
`np.sqrt` of the dispersion is not a positive value — as for a zero
dispersion (`sqrt 0 = 0`) or a negative one (`sqrt` yields NaN, which
compares false against 0) — the column's normalized residuals are 0 rather
than an error. -/
theorem norm_resid_guard {n k q : ℕ} (sqrt : ℚ → ℚ)
    (r : RegressionResults n k q) :
    RegressionResults.norm_resid sqrt r =
        (fun t c => r.resid t c * positive_reciprocal (sqrt (r.dispersion c)))
    ∧ ∀ c, ¬ 0 < sqrt (r.dispersion c) →
        ∀ t, RegressionResults.norm_resid sqrt r t c = 0 := by
  refine ⟨rfl, fun c h t => ?_⟩
  simp [RegressionResults.norm_resid, positive_reciprocal, h]

/-- The design `[[1, 1]]` (one observation, two regressors), whose fit has a
negative dispersion denominator `n - k = -1`. -/
def design12 : Mat 1 2 := fun _ _ => 1

/-- An external pseudoinverse value for `design12`. -/
def pinvOnes : Mat 1 2 → Mat 2 1 := fun _ _ _ => 1

/-- An external rank value for `design12`. -/
def rankConst12 : Mat 1 2 → ℚ → ℕ := fun _ _ => 1

/-- `OLSModel([[1, 1]])`. -/
def mOLS12 : OLSModel 1 2 := OLSModel.mk' pinvOnes rankConst12 0 design12

/-- The response `[1]`. -/
def Yone : Mat 1 1 := fun _ _ => 1

/-- `np.sqrt` on the nonpositive arguments relevant to the witness: a function
that is never positive there (modelling `sqrt 0 = 0` / NaN for negatives). -/
def sqrtZero : ℚ → ℚ := fun _ => 0

/-- Witness for C8: the fit of `[[1, 1]]` against `[1]` has nonpositive
dispersion, and its normalized residuals are 0, with no error raised. -/
theorem norm_resid_guard_witness :
    (¬ 0 < sqrtZero ((mOLS12.fit Yone).dispersion 0))
    ∧ (mOLS12.fit Yone).norm_resid sqrtZero 0 0 = 0 :=
  ⟨by simp [sqrtZero], (norm_resid_guard sqrtZero (mOLS12.fit Yone)).2 0
    (by simp [sqrtZero]) 0⟩

/-- C9: `logL` on a compact results object unconditionally raises the
`ValueError` and never returns a value, whatever the input. -/
theorem simple_logL_always_raises {n k q : ℕ}
    (r : SimpleRegressionResults n k q) (Y : Mat n q) :
    SimpleRegressionResults.logL r Y =
        .error "can not use this method for simple results"
    ∧ exceptOk (SimpleRegressionResults.logL r Y) = false :=
  ⟨rfl, rfl⟩

/-- C3: the compact results constructor never assigns the `model` attribute
(it does not invoke the base-class constructor), so `predicted()` — which
reads `self.model.design` — raises `AttributeError` on every compact results
instance instead of returning `design · theta`. -/
theorem simple_predicted_attribute_error {n k q : ℕ}
    (results : RegressionResults n k q) :
    (SimpleRegressionResults.ofResults results).predicted =
        .error "AttributeError: SimpleRegressionResults object has no attribute model"
    ∧ exceptOk (SimpleRegressionResults.ofResults results).predicted = false :=
  ⟨rfl, rfl⟩
